import Mathlib

/-!
Shallow embedding of `crates/uv-python/src/windows_registry.rs` (PEP 514
interactions with the Windows registry): discovery of registered Python
interpreters (`registry_pythons`, `read_registry_entry`) and registration of a
managed installation (`create_registry_entry`, `write_registry_entry`).

The hierarchical key-value store (the Windows registry) is an external
capability; it is embedded as an oracle (`Registry` for reads, a `WriteOp`
oracle for writes) whose operations return `Except`, mirroring the
`windows_registry` crate's `Result`-returning `open`/`keys`/`get_value`/
`set_string`/`set_value` primitives.  Store mutations are recorded as a trace
of successfully applied `WriteOp`s.
-/

/-- Modelled from the spec: the external version type (`PythonVersion`, defined
outside this file's source) exposes `parse(text) -> Version | ParseError` and a
total order.  It is modelled as a dotted list of numeric components with
lexicographic order. -/
structure PythonVersion where
  release : List Nat
deriving DecidableEq, Repr

/-- Split a character list on `'.'` separators. -/
def splitDots : List Char → List (List Char)
  | [] => [[]]
  | c :: rest =>
    if c = '.' then [] :: splitDots rest
    else
      match splitDots rest with
      | [] => [[c]]
      | g :: gs => (c :: g) :: gs

/-- Modelled from the spec: one numeric component of a version string — a
non-empty run of decimal digits. -/
def parseComponent (cs : List Char) : Except String Nat :=
  if cs ≠ [] ∧ cs.all Char.isDigit then
    Except.ok (cs.foldl (fun n c => 10 * n + (c.toNat - 48)) 0)
  else Except.error ("invalid version component: " ++ String.mk cs)

/-- Modelled from the spec: `PythonVersion::from_str` — parse a dotted numeric
version, failing on any non-numeric component. -/
def pythonVersionFromStr (s : String) : Except String PythonVersion :=
  match (splitDots s.data).mapM parseComponent with
  | Except.ok parts => Except.ok ⟨parts⟩
  | Except.error e => Except.error e

deriving instance DecidableEq for Except

/-- Lexicographic comparison of lists given an element comparison. -/
def cmpLex (cmp : α → α → Ordering) : List α → List α → Ordering
  | [], [] => Ordering.eq
  | [], _ :: _ => Ordering.lt
  | _ :: _, [] => Ordering.gt
  | a :: as, b :: bs => (cmp a b).then (cmpLex cmp as bs)

/-- Character comparison by code point, embedding the byte-wise order used by
`PathBuf::cmp`. -/
def charCmp (a b : Char) : Ordering := compare a.toNat b.toNat

/-- Embedding of `PathBuf::cmp` (paths modelled as strings, compared
lexicographically by character). -/
def pathCmp (a b : String) : Ordering := cmpLex charCmp a.data b.data

/-- Modelled from the spec: the external version type's total order
(`Ord for PythonVersion`), lexicographic on components. -/
def versionCmp (a b : PythonVersion) : Ordering := cmpLex compare a.release b.release

/-- Embedding of `WindowsPython`: a Python interpreter found in the registry,
with its executable path and an optional version. -/
structure WindowsPython where
  path : String
  version : Option PythonVersion
deriving DecidableEq, Repr

/-- The two registry scopes consulted: `CURRENT_USER` and `LOCAL_MACHINE`. -/
inductive Root
  | currentUser
  | localMachine
deriving DecidableEq, Repr

/-- Embedding of `windows_result::Error` as an opaque numeric error code. -/
abbrev RegError := Nat

/-- A stored registry value: either text (readable via `String::try_from`) or a
value of some other type (for which `String::try_from` fails). -/
inductive RegValue
  | str (s : String)
  | other
deriving DecidableEq, Repr

/-- Embedding of `String::try_from(Value)`: succeeds exactly on text values. -/
def regValueAsString : RegValue → Except RegError String
  | RegValue.str s => Except.ok s
  | RegValue.other => Except.error 13

/-- Read-side oracle for the registry store.  A key handle is identified by its
scope and the list of path arguments passed to successive `open` calls. -/
structure Registry where
  openKey : Root → List String → Except RegError Unit
  subkeys : Root → List String → Except RegError (List String)
  getValue : Root → List String → String → Except RegError RegValue

/-- Diagnostics emitted via `debug!` by `read_registry_entry`. -/
inductive LogMsg
  | notExecutable (company tag : String)
  | invalidVersion (exe s err : String)
deriving DecidableEq, Repr

/-- Path of the tag key `Software\Python\<company>\<tag>` as the sequence of
`open` arguments used to reach it. -/
def tagPath (company tag : String) : List String :=
  ["Software\\Python", company, tag]

/-- The mandatory-field chain of `read_registry_entry`:
`tag_key.open("InstallPath").and_then(get_value("ExecutablePath")).and_then(String::try_from)`. -/
def exeResult (reg : Registry) (root : Root) (company tag : String) :
    Except RegError String :=
  match reg.openKey root (tagPath company tag ++ ["InstallPath"]) with
  | Except.error e => Except.error e
  | Except.ok _ =>
    match reg.getValue root (tagPath company tag ++ ["InstallPath"]) "ExecutablePath" with
    | Except.error e => Except.error e
    | Except.ok v => regValueAsString v

/-- The optional-field chain of `read_registry_entry`:
`tag_key.get_value("SysVersion").and_then(String::try_from)`. -/
def sysVersionText (reg : Registry) (root : Root) (company tag : String) :
    Except RegError String :=
  match reg.getValue root (tagPath company tag) "SysVersion" with
  | Except.error e => Except.error e
  | Except.ok v => regValueAsString v

/-- Embedding of `read_registry_entry`.  Returns the parsed entry (if any)
together with the diagnostics logged, mirroring the `debug!` calls. -/
def readRegistryEntry (reg : Registry) (root : Root) (company tag : String) :
    Option WindowsPython × List LogMsg :=
  match exeResult reg root company tag with
  | Except.error _ => (none, [LogMsg.notExecutable company tag])
  | Except.ok executablePath =>
    match sysVersionText reg root company tag with
    | Except.error _ => (some ⟨executablePath, none⟩, [])
    | Except.ok s =>
      match pythonVersionFromStr s with
      | Except.ok v => (some ⟨executablePath, some v⟩, [])
      | Except.error err =>
        (some ⟨executablePath, none⟩, [LogMsg.invalidVersion executablePath s err])

/-- Embedding of the comparator passed to `sort_by` in `registry_pythons`
(lines 52-65 of the source, branch for branch). -/
def rankCmp (a b : WindowsPython) : Ordering :=
  match a.version, b.version with
  | some _, none => Ordering.gt
  | none, some _ => Ordering.lt
  | some va, some vb => ((versionCmp va vb).swap).then (pathCmp a.path b.path)
  | none, none => pathCmp a.path b.path

/-- `sort_by` sorts ascending with respect to the comparator: `a` may precede
`b` exactly when the comparator does not return `Greater`. -/
def rankRel (a b : WindowsPython) : Prop := rankCmp a b ≠ Ordering.gt

instance : DecidableRel rankRel := fun a b => by
  unfold rankRel; infer_instance

/-- The ranking step of `registry_pythons`: sort ascending by the comparator.
(`sort_by` is a stable comparison sort; the comparator is proved antisymmetric
below, so every comparison sort returns this same list.) -/
def rankSort (l : List WindowsPython) : List WindowsPython :=
  List.insertionSort rankRel l

/-- Embedding of the inner tag loop of `registry_pythons`: open each
enumerated tag (`company_key.open(&tag)?` — a hard error) and collect the
entries `read_registry_entry` accepts. -/
def scanTags (reg : Registry) (root : Root) (company : String) :
    List String → Except RegError (List WindowsPython)
  | [] => Except.ok []
  | tag :: rest =>
    match reg.openKey root (tagPath company tag) with
    | Except.error e => Except.error e
    | Except.ok _ =>
      match scanTags reg root company rest with
      | Except.error e => Except.error e
      | Except.ok tail =>
        match (readRegistryEntry reg root company tag).fst with
        | some p => Except.ok (p :: tail)
        | none => Except.ok tail

/-- Embedding of the company loop of `registry_pythons`: skip the reserved
`PyLauncher` name, soft-skip companies that fail to open, enumerate their tags
(`company_key.keys()?` — a hard error). -/
def scanCompanies (reg : Registry) (root : Root) :
    List String → Except RegError (List WindowsPython)
  | [] => Except.ok []
  | company :: rest =>
    if company = "PyLauncher" then scanCompanies reg root rest
    else
      match reg.openKey root ["Software\\Python", company] with
      | Except.error _ => scanCompanies reg root rest
      | Except.ok _ =>
        match reg.subkeys root ["Software\\Python", company] with
        | Except.error e => Except.error e
        | Except.ok tags =>
          match scanTags reg root company tags with
          | Except.error e => Except.error e
          | Except.ok entries =>
            match scanCompanies reg root rest with
            | Except.error e => Except.error e
            | Except.ok tail => Except.ok (entries ++ tail)

/-- Embedding of one scope of `registry_pythons`: soft-skip a scope whose
vendor root fails to open, otherwise enumerate companies
(`key_python.keys()?` — a hard error). -/
def scanRoot (reg : Registry) (root : Root) : Except RegError (List WindowsPython) :=
  match reg.openKey root ["Software\\Python"] with
  | Except.error _ => Except.ok []
  | Except.ok _ =>
    match reg.subkeys root ["Software\\Python"] with
    | Except.error e => Except.error e
    | Except.ok companies => scanCompanies reg root companies

/-- Embedding of `registry_pythons`: scan `CURRENT_USER` then `LOCAL_MACHINE`,
concatenate, and sort with the ranking comparator. -/
def registryPythons (reg : Registry) : Except RegError (List WindowsPython) :=
  match scanRoot reg Root.currentUser with
  | Except.error e => Except.error e
  | Except.ok a =>
    match scanRoot reg Root.localMachine with
    | Except.error e => Except.error e
    | Except.ok b => Except.ok (rankSort (a ++ b))

/-- Embedding of `target_lexicon::PointerWidth`. -/
inductive PointerWidth
  | u16
  | u32
  | u64
deriving DecidableEq, Repr

/-- Modelled from the spec: an architecture family with its pointer width
(`Arch`, defined outside this file's source); `none` stands for
`pointer_width()` returning `Err`. -/
structure Arch where
  name : String
  pointerWidthFamily : Option PointerWidth
deriving DecidableEq, Repr

/-- Modelled from the spec: the installation identity key (implementation
name, version, architecture) plus the derived `sys_version` text
(`PythonInstallationKey`, defined outside this file's source). -/
structure PythonInstallationKey where
  implementationPretty : String
  version : String
  sysVersion : String
  arch : Arch
deriving DecidableEq, Repr

/-- Modelled from the spec: a managed installation record — identity key,
filesystem root, console/windowed executables, optional provenance
(`ManagedPythonInstallation`, defined outside this file's source). -/
structure ManagedPythonInstallation where
  key : PythonInstallationKey
  path : String
  executableConsole : String
  executableWindowed : String
  url : Option String
  sha256 : Option String
deriving DecidableEq, Repr

/-- Modelled from the spec: `installation.executable(windowed)` selects the
windowed or console executable path. -/
def ManagedPythonInstallation.executable
    (i : ManagedPythonInstallation) (windowed : Bool) : String :=
  if windowed then i.executableWindowed else i.executableConsole

/-- Embedding of `ManagedPep514Error`. -/
inductive ManagedPep514Error
  | invalidPointerSize (arch : Arch)
deriving DecidableEq, Repr

/-- A single store mutation attempted by the writer.  All writes address the
user-specific scope. -/
inductive WriteOp
  | createKey (root : Root) (path : List String)
  | setString (root : Root) (path : List String) (name value : String)
  | setPathValue (root : Root) (path : List String) (name value : String)
deriving DecidableEq, Repr

/-- Modelled from the spec: the vendor name literal used for registration
(the crate-level `COMPANY` constant, defined outside this file's source). -/
def COMPANY : String := "Astral"

/-- The tag name written by registration: `{implementation}{version}`. -/
def pythonTag (i : ManagedPythonInstallation) : String :=
  i.key.implementationPretty ++ i.key.version

/-- The display name written by registration:
`{implementation} {version} ({pointer_width}-bit)`. -/
def displayName (i : ManagedPythonInstallation) (pointerWidth : Nat) : String :=
  i.key.implementationPretty ++ " " ++ i.key.version ++ " (" ++
    toString pointerWidth ++ "-bit)"

/-- The sequence of store mutations attempted by `write_registry_entry`, in
source order. -/
def writeOps (i : ManagedPythonInstallation) (pointerWidth : Nat) : List WriteOp :=
  let companyPath := ["Software\\Python\\" ++ COMPANY]
  let tp := companyPath ++ [pythonTag i]
  let ip := tp ++ ["InstallPath"]
  [WriteOp.createKey Root.currentUser companyPath,
   WriteOp.setString Root.currentUser companyPath "DisplayName" "Astral",
   WriteOp.setString Root.currentUser companyPath "SupportUrl"
     "https://github.com/astral-sh/uv",
   WriteOp.createKey Root.currentUser tp,
   WriteOp.setString Root.currentUser tp "DisplayName" (displayName i pointerWidth),
   WriteOp.setString Root.currentUser tp "SupportUrl" "https://github.com/astral-sh/uv",
   WriteOp.setString Root.currentUser tp "Version" i.key.version,
   WriteOp.setString Root.currentUser tp "SysVersion" i.key.sysVersion,
   WriteOp.setString Root.currentUser tp "SysArchitecture"
     (toString pointerWidth ++ "bit")]
  ++ (match i.url with
      | some url => [WriteOp.setString Root.currentUser tp "DownloadUrl" url]
      | none => [])
  ++ (match i.sha256 with
      | some s => [WriteOp.setString Root.currentUser tp "DownloadSha256" s]
      | none => [])
  ++ [WriteOp.createKey Root.currentUser ip,
      WriteOp.setPathValue Root.currentUser ip "" i.path,
      WriteOp.setPathValue Root.currentUser ip "ExecutablePath" (i.executable false),
      WriteOp.setPathValue Root.currentUser ip "WindowedExecutablePath"
        (i.executable true)]

/-- Apply mutations in order against a write oracle until the first failure
(`?` on each call); returns the final result and the trace of mutations that
were actually applied. -/
def runOps (oracle : WriteOp → Except RegError Unit) :
    List WriteOp → Except RegError Unit × List WriteOp
  | [] => (Except.ok (), [])
  | op :: rest =>
    match oracle op with
    | Except.error e => (Except.error e, [])
    | Except.ok _ =>
      let (r, t) := runOps oracle rest
      (r, op :: t)

/-- Embedding of `write_registry_entry`: attempt the fixed mutation schema for
one installation at the given pointer width. -/
def writeRegistryEntry (oracle : WriteOp → Except RegError Unit)
    (i : ManagedPythonInstallation) (pointerWidth : Nat) :
    Except RegError Unit × List WriteOp :=
  runOps oracle (writeOps i pointerWidth)

/-- Embedding of the pointer-width match at the top of `create_registry_entry`:
`Ok(U32) => 32, Ok(U64) => 64, _ => Err(InvalidPointerSize)`. -/
def pointerWidthLabel (a : Arch) : Except ManagedPep514Error Nat :=
  match a.pointerWidthFamily with
  | some PointerWidth.u32 => Except.ok 32
  | some PointerWidth.u64 => Except.ok 64
  | _ => Except.error (ManagedPep514Error.invalidPointerSize a)

/-- Embedding of `create_registry_entry`: derive the pointer-width label (a
typed error aborts before any mutation), then attempt the writes, pushing any
write failure onto the caller-owned error list and returning success.  The
third component is the trace of applied mutations. -/
def createRegistryEntry (oracle : WriteOp → Except RegError Unit)
    (i : ManagedPythonInstallation)
    (errors : List (PythonInstallationKey × RegError)) :
    Except ManagedPep514Error Unit × List (PythonInstallationKey × RegError) ×
      List WriteOp :=
  match pointerWidthLabel i.key.arch with
  | Except.error e => (Except.error e, errors, [])
  | Except.ok pw =>
    match writeRegistryEntry oracle i pw with
    | (Except.error e, t) => (Except.ok (), errors ++ [(i.key, e)], t)
    | (Except.ok _, t) => (Except.ok (), errors, t)

/-- Modelled from the spec: a batch of installations is processed
sequentially, each through `create_registry_entry` with the shared
caller-owned error list; the per-installation write-failure isolation means a
later installation is still attempted after an earlier write failure. -/
def createRegistryEntries (oracle : WriteOp → Except RegError Unit) :
    List ManagedPythonInstallation →
    List (PythonInstallationKey × RegError) →
    Except ManagedPep514Error
      (List (PythonInstallationKey × RegError) × List WriteOp)
  | [], errors => Except.ok (errors, [])
  | i :: rest, errors =>
    match createRegistryEntry oracle i errors with
    | (Except.error e, _, _) => Except.error e
    | (Except.ok _, errs, t) =>
      match createRegistryEntries oracle rest errs with
      | Except.error e => Except.error e
      | Except.ok (errs2, t2) => Except.ok (errs2, t ++ t2)

/-! ## Concrete instances

Small concrete registries, installations and entries used to evaluate the
embedded code on explicit inputs. -/

/-- Discovery entry with path `/a` and version `3.12.0`. -/
def entryA : WindowsPython := ⟨"/a", some ⟨[3, 12, 0]⟩⟩

/-- Discovery entry with path `/b` and version `3.11.5`. -/
def entryB : WindowsPython := ⟨"/b", some ⟨[3, 11, 5]⟩⟩

/-- Discovery entry with path `/c` and no version. -/
def entryC : WindowsPython := ⟨"/c", none⟩

/-- Discovery entry with path `/a` and version `3.12.0` (tie-break pair). -/
def entryTieA : WindowsPython := ⟨"/a", some ⟨[3, 12, 0]⟩⟩

/-- Discovery entry with path `/b` and version `3.12.0` (tie-break pair). -/
def entryTieB : WindowsPython := ⟨"/b", some ⟨[3, 12, 0]⟩⟩

/-- A registry with one company `PyCorp` and one fully valid tag `3.12` in the
current-user scope. -/
def regGood : Registry where
  openKey := fun root _ =>
    if root = Root.currentUser then Except.ok () else Except.error 2
  subkeys := fun _ p =>
    if p = ["Software\\Python"] then Except.ok ["PyCorp"]
    else if p = ["Software\\Python", "PyCorp"] then Except.ok ["3.12"]
    else Except.error 7
  getValue := fun _ p name =>
    if p = ["Software\\Python", "PyCorp", "3.12", "InstallPath"] ∧
        name = "ExecutablePath" then
      Except.ok (RegValue.str "C:\\py\\python.exe")
    else if p = ["Software\\Python", "PyCorp", "3.12"] ∧ name = "SysVersion" then
      Except.ok (RegValue.str "3.12.0")
    else Except.error 2

/-- Like `regGood`, but the `ExecutablePath` value stores the empty string. -/
def regEmptyPath : Registry where
  openKey := fun root _ =>
    if root = Root.currentUser then Except.ok () else Except.error 2
  subkeys := fun _ p =>
    if p = ["Software\\Python"] then Except.ok ["PyCorp"]
    else if p = ["Software\\Python", "PyCorp"] then Except.ok ["3.12"]
    else Except.error 7
  getValue := fun _ p name =>
    if p = ["Software\\Python", "PyCorp", "3.12", "InstallPath"] ∧
        name = "ExecutablePath" then
      Except.ok (RegValue.str "")
    else Except.error 2

/-- Two tags: `T1` has no `ExecutablePath` value, `T2` is valid (versionless). -/
def regMissingExe : Registry where
  openKey := fun root _ =>
    if root = Root.currentUser then Except.ok () else Except.error 2
  subkeys := fun _ p =>
    if p = ["Software\\Python"] then Except.ok ["PyCorp"]
    else if p = ["Software\\Python", "PyCorp"] then Except.ok ["T1", "T2"]
    else Except.error 7
  getValue := fun _ p name =>
    if p = ["Software\\Python", "PyCorp", "T2", "InstallPath"] ∧
        name = "ExecutablePath" then
      Except.ok (RegValue.str "C:\\py2\\python.exe")
    else Except.error 2

/-- One valid tag whose `SysVersion` text does not parse as a version. -/
def regBadVer : Registry where
  openKey := fun root _ =>
    if root = Root.currentUser then Except.ok () else Except.error 2
  subkeys := fun _ p =>
    if p = ["Software\\Python"] then Except.ok ["PyCorp"]
    else if p = ["Software\\Python", "PyCorp"] then Except.ok ["3.12"]
    else Except.error 7
  getValue := fun _ p name =>
    if p = ["Software\\Python", "PyCorp", "3.12", "InstallPath"] ∧
        name = "ExecutablePath" then
      Except.ok (RegValue.str "C:\\py\\python.exe")
    else if p = ["Software\\Python", "PyCorp", "3.12"] ∧ name = "SysVersion" then
      Except.ok (RegValue.str "not-a-version")
    else Except.error 2

/-- One valid tag whose `SysVersion` value exists but is not a text value. -/
def regOtherVer : Registry where
  openKey := fun root _ =>
    if root = Root.currentUser then Except.ok () else Except.error 2
  subkeys := fun _ p =>
    if p = ["Software\\Python"] then Except.ok ["PyCorp"]
    else if p = ["Software\\Python", "PyCorp"] then Except.ok ["3.12"]
    else Except.error 7
  getValue := fun _ p name =>
    if p = ["Software\\Python", "PyCorp", "3.12", "InstallPath"] ∧
        name = "ExecutablePath" then
      Except.ok (RegValue.str "C:\\py\\python.exe")
    else if p = ["Software\\Python", "PyCorp", "3.12"] ∧ name = "SysVersion" then
      Except.ok RegValue.other
    else Except.error 2

/-- A registry where every `open` fails. -/
def regOpenFail : Registry where
  openKey := fun _ _ => Except.error 2
  subkeys := fun _ _ => Except.ok []
  getValue := fun _ _ _ => Except.error 2

/-- A registry where opens succeed but every enumeration fails. -/
def regRootEnumFail : Registry where
  openKey := fun _ _ => Except.ok ()
  subkeys := fun _ _ => Except.error 7
  getValue := fun _ _ _ => Except.error 2

/-- A registry where enumerating under the vendor root succeeds but
enumerating under the company key fails. -/
def regCompanyEnumFail : Registry where
  openKey := fun _ _ => Except.ok ()
  subkeys := fun _ p =>
    if p = ["Software\\Python"] then Except.ok ["PyCorp"] else Except.error 9
  getValue := fun _ _ _ => Except.error 2

/-- A registry where opening an enumerated tag fails. -/
def regTagOpenFail : Registry where
  openKey := fun _ p =>
    if p = tagPath "PyCorp" "3.12" then Except.error 11 else Except.ok ()
  subkeys := fun _ p =>
    if p = ["Software\\Python"] then Except.ok ["PyCorp"]
    else if p = ["Software\\Python", "PyCorp"] then Except.ok ["3.12"]
    else Except.error 7
  getValue := fun _ _ _ => Except.error 2

/-- A write oracle where every mutation succeeds. -/
def oracleOk : WriteOp → Except RegError Unit := fun _ => Except.ok ()

/-- An x86-64 CPython 3.12.0 installation. -/
def instA : ManagedPythonInstallation where
  key := { implementationPretty := "CPython", version := "3.12.0",
           sysVersion := "3.12", arch := ⟨"x86_64", some PointerWidth.u64⟩ }
  path := "C:\\uv\\py312"
  executableConsole := "C:\\uv\\py312\\python.exe"
  executableWindowed := "C:\\uv\\py312\\pythonw.exe"
  url := none
  sha256 := none

/-- An x86-64 CPython 3.13.1 installation. -/
def instB : ManagedPythonInstallation where
  key := { implementationPretty := "CPython", version := "3.13.1",
           sysVersion := "3.13", arch := ⟨"x86_64", some PointerWidth.u64⟩ }
  path := "C:\\uv\\py313"
  executableConsole := "C:\\uv\\py313\\python.exe"
  executableWindowed := "C:\\uv\\py313\\pythonw.exe"
  url := none
  sha256 := none

/-- An installation whose architecture has no recognized pointer width. -/
def instBadArch : ManagedPythonInstallation where
  key := { implementationPretty := "CPython", version := "3.12.0",
           sysVersion := "3.12", arch := ⟨"avr", none⟩ }
  path := "C:\\uv\\avr"
  executableConsole := "C:\\uv\\avr\\python.exe"
  executableWindowed := "C:\\uv\\avr\\pythonw.exe"
  url := none
  sha256 := none

/-- A write oracle that fails exactly when storing the `Version` value
`3.12.0` (so registration of `instA` fails mid-way, `instB` succeeds). -/
def oracleFailV312 : WriteOp → Except RegError Unit := fun op =>
  match op with
  | WriteOp.setString _ _ "Version" "3.12.0" => Except.error 5
  | _ => Except.ok ()

/-- The mutations `instA` manages to apply before its write failure. -/
def traceA : List WriteOp := (writeRegistryEntry oracleFailV312 instA 64).snd

/-! ## Comparator laws

The ranking comparator is shown to induce a linear order: `.eq` exactly on
equal values, antisymmetry via `swap`, and transitivity of the induced `≤`
(`≠ .gt`).  These laws make the sorted output independent of input order. -/

/-- A comparator inducing a linear order. -/
structure LawfulCmp (cmp : α → α → Ordering) : Prop where
  eq_iff : ∀ a b, cmp a b = Ordering.eq ↔ a = b
  swap_eq : ∀ a b, (cmp a b).swap = cmp b a
  le_trans : ∀ a b c, cmp a b ≠ Ordering.gt → cmp b c ≠ Ordering.gt →
    cmp a c ≠ Ordering.gt

/-- Lexicographic product of two comparators on a pair. -/
def prodCmp (cmp1 : α → α → Ordering) (cmp2 : β → β → Ordering)
    (x y : α × β) : Ordering :=
  (cmp1 x.1 y.1).then (cmp2 x.2 y.2)

theorem ne_gt_iff (o : Ordering) :
    o ≠ Ordering.gt ↔ o = Ordering.lt ∨ o = Ordering.eq := by
  cases o <;> decide

theorem then_ne_gt {o p : Ordering} :
    o.then p ≠ Ordering.gt ↔
      o ≠ Ordering.gt ∧ (o = Ordering.eq → p ≠ Ordering.gt) := by
  rw [Ne, Ordering.then_eq_gt]
  constructor
  · intro hh
    exact ⟨fun ho => hh (Or.inl ho), fun ho hp => hh (Or.inr ⟨ho, hp⟩)⟩
  · rintro ⟨h1, h2⟩ (ho | ⟨ho, hp⟩)
    · exact h1 ho
    · exact h2 ho hp

theorem LawfulCmp.refl_eq {cmp : α → α → Ordering} (h : LawfulCmp cmp)
    (a : α) : cmp a a = Ordering.eq :=
  (h.eq_iff a a).mpr rfl

theorem LawfulCmp.gt_of_lt {cmp : α → α → Ordering} (h : LawfulCmp cmp)
    {a b : α} (hl : cmp a b = Ordering.lt) : cmp b a = Ordering.gt := by
  have hs := h.swap_eq a b
  rw [hl] at hs
  exact hs.symm

theorem LawfulCmp.lt_trans {cmp : α → α → Ordering} (h : LawfulCmp cmp)
    {a b c : α} (h1 : cmp a b = Ordering.lt) (h2 : cmp b c = Ordering.lt) :
    cmp a c = Ordering.lt := by
  have hle := h.le_trans a b c (by rw [h1]; decide) (by rw [h2]; decide)
  rcases (ne_gt_iff _).mp hle with hlt | heq
  · exact hlt
  · exfalso
    have hac : a = c := (h.eq_iff a c).mp heq
    rw [hac] at h1
    rw [h.gt_of_lt h2] at h1
    exact Ordering.noConfusion h1

/-- One lexicographic step: if the tail comparisons compose transitively, so
does `(cmp1 · ·).then tail`. -/
theorem LawfulCmp.lex_step {cmp1 : α → α → Ordering} (h1 : LawfulCmp cmp1)
    {a b c : α} {p q r : Ordering}
    (hpq : p ≠ Ordering.gt → q ≠ Ordering.gt → r ≠ Ordering.gt)
    (ha : (cmp1 a b).then p ≠ Ordering.gt)
    (hb : (cmp1 b c).then q ≠ Ordering.gt) :
    (cmp1 a c).then r ≠ Ordering.gt := by
  rw [then_ne_gt] at ha hb ⊢
  obtain ⟨ha1, ha2⟩ := ha
  obtain ⟨hb1, hb2⟩ := hb
  rcases (ne_gt_iff _).mp ha1 with hxy | hxy
  · rcases (ne_gt_iff _).mp hb1 with hyz | hyz
    · have hl := h1.lt_trans hxy hyz
      exact ⟨by rw [hl]; decide, fun he => by rw [hl] at he; exact Ordering.noConfusion he⟩
    · have hyz' : b = c := (h1.eq_iff b c).mp hyz
      rw [← hyz']
      exact ⟨by rw [hxy]; decide, fun he => by rw [hxy] at he; exact Ordering.noConfusion he⟩
  · have hxy' : a = b := (h1.eq_iff a b).mp hxy
    rw [hxy']
    refine ⟨hb1, fun he => ?_⟩
    exact hpq (ha2 hxy) (hb2 he)

theorem lawful_prodCmp {cmp1 : α → α → Ordering} {cmp2 : β → β → Ordering}
    (h1 : LawfulCmp cmp1) (h2 : LawfulCmp cmp2) :
    LawfulCmp (prodCmp cmp1 cmp2) := by
  refine ⟨fun x y => ?_, fun x y => ?_, fun x y z ha hb => ?_⟩
  · rw [prodCmp, Ordering.then_eq_eq, h1.eq_iff, h2.eq_iff, Prod.ext_iff]
  · rw [prodCmp, prodCmp, Ordering.swap_then, h1.swap_eq, h2.swap_eq]
  · exact h1.lex_step (h2.le_trans x.2 y.2 z.2) ha hb

theorem natCompare_swap (a b : Nat) : (compare a b).swap = compare b a := by
  rcases Nat.lt_trichotomy a b with h | h | h
  · rw [Nat.compare_eq_lt.mpr h, Nat.compare_eq_gt.mpr h]
    rfl
  · subst h
    rw [Nat.compare_eq_eq.mpr rfl]
    rfl
  · rw [Nat.compare_eq_gt.mpr h, Nat.compare_eq_lt.mpr h]
    rfl

theorem natCompare_le {a b : Nat} : compare a b ≠ Ordering.gt ↔ a ≤ b := by
  rw [Ne, Nat.compare_eq_gt, Nat.not_lt]

theorem lawful_natCompare : LawfulCmp (fun a b : Nat => compare a b) := by
  refine ⟨fun a b => Nat.compare_eq_eq, natCompare_swap, fun a b c h1 h2 => ?_⟩
  rw [natCompare_le] at h1 h2 ⊢
  exact Nat.le_trans h1 h2

theorem LawfulCmp.comap {cmp : β → β → Ordering} (h : LawfulCmp cmp)
    (f : α → β) (hf : Function.Injective f) :
    LawfulCmp (fun a b => cmp (f a) (f b)) := by
  refine ⟨fun a b => ?_, fun a b => h.swap_eq (f a) (f b),
    fun a b c => h.le_trans (f a) (f b) (f c)⟩
  rw [h.eq_iff]
  exact ⟨fun hfe => hf hfe, fun he => he ▸ rfl⟩

theorem lawful_charCmp : LawfulCmp charCmp :=
  lawful_natCompare.comap Char.toNat fun _ _ hc => Char.ext (UInt32.ext hc)

theorem lawful_cmpLex {cmp : α → α → Ordering} (h : LawfulCmp cmp) :
    LawfulCmp (cmpLex cmp) := by
  refine ⟨fun as => ?_, fun as => ?_, fun as => ?_⟩
  · induction as with
    | nil => intro bs; cases bs <;> simp [cmpLex]
    | cons a as ih =>
      intro bs
      cases bs with
      | nil => simp [cmpLex]
      | cons b bs =>
        rw [cmpLex, Ordering.then_eq_eq, h.eq_iff, ih bs, List.cons.injEq]
  · induction as with
    | nil => intro bs; cases bs <;> rfl
    | cons a as ih =>
      intro bs
      cases bs with
      | nil => rfl
      | cons b bs => rw [cmpLex, cmpLex, Ordering.swap_then, h.swap_eq, ih bs]
  · induction as with
    | nil =>
      intro bs cs h1 h2
      cases cs <;> simp [cmpLex]
    | cons a as ih =>
      intro bs cs h1 h2
      cases bs with
      | nil => exact absurd rfl h1
      | cons b bs =>
        cases cs with
        | nil => exact absurd rfl h2
        | cons c cs =>
          rw [cmpLex] at h1 h2 ⊢
          exact h.lex_step (ih bs cs) h1 h2

theorem lawful_versionCmp : LawfulCmp versionCmp := by
  have h := (lawful_cmpLex lawful_natCompare).comap PythonVersion.release
    (fun a b hr => by cases a; cases b; cases hr; rfl)
  exact ⟨h.eq_iff, h.swap_eq, h.le_trans⟩

theorem lawful_pathCmp : LawfulCmp pathCmp := by
  have h := (lawful_cmpLex lawful_charCmp).comap String.data
    (fun a b hr => String.ext hr)
  exact ⟨h.eq_iff, h.swap_eq, h.le_trans⟩

theorem rankCmp_versioned (pa pb : String) (va vb : PythonVersion) :
    rankCmp ⟨pa, some va⟩ ⟨pb, some vb⟩ =
      prodCmp (fun x y => (versionCmp x y).swap) pathCmp (va, pa) (vb, pb) := rfl

/-- The descending version comparator used in the versioned branch. -/
theorem lawful_versionCmpDesc :
    LawfulCmp (fun x y => (versionCmp x y).swap) := by
  have heq : (fun x y => (versionCmp x y).swap) =
      fun x y => versionCmp y x :=
    funext fun x => funext fun y => lawful_versionCmp.swap_eq x y
  rw [heq]
  refine ⟨fun a b => ?_, fun a b => lawful_versionCmp.swap_eq b a,
    fun a b c h1 h2 => lawful_versionCmp.le_trans c b a h2 h1⟩
  rw [lawful_versionCmp.eq_iff]
  exact eq_comm

theorem lawful_rankCmp : LawfulCmp rankCmp := by
  have hvp := lawful_prodCmp lawful_versionCmpDesc lawful_pathCmp
  refine ⟨fun a b => ?_, fun a b => ?_, fun a b c h1 h2 => ?_⟩
  · obtain ⟨pa, va⟩ := a
    obtain ⟨pb, vb⟩ := b
    cases va with
    | none =>
      cases vb with
      | none =>
        rw [show rankCmp ⟨pa, none⟩ ⟨pb, none⟩ = pathCmp pa pb from rfl,
          lawful_pathCmp.eq_iff]
        simp
      | some vb => simp [rankCmp]
    | some va =>
      cases vb with
      | none => simp [rankCmp]
      | some vb =>
        rw [rankCmp_versioned, hvp.eq_iff, Prod.ext_iff]
        simp only [WindowsPython.mk.injEq, Option.some.injEq]
        exact ⟨fun ⟨x, y⟩ => ⟨y, x⟩, fun ⟨x, y⟩ => ⟨y, x⟩⟩
  · obtain ⟨pa, va⟩ := a
    obtain ⟨pb, vb⟩ := b
    cases va with
    | none =>
      cases vb with
      | none =>
        exact lawful_pathCmp.swap_eq pa pb
      | some vb => rfl
    | some va =>
      cases vb with
      | none => rfl
      | some vb =>
        rw [rankCmp_versioned, rankCmp_versioned, hvp.swap_eq]
  · obtain ⟨pa, va⟩ := a
    obtain ⟨pb, vb⟩ := b
    obtain ⟨pc, vc⟩ := c
    cases va with
    | none =>
      cases vc with
      | none =>
        cases vb with
        | none => exact lawful_pathCmp.le_trans pa pb pc h1 h2
        | some vb => exact absurd rfl h2
      | some vc =>
        cases vb with
        | none => simp [rankCmp]
        | some vb => simp [rankCmp]
    | some va =>
      cases vb with
      | none => exact absurd rfl h1
      | some vb =>
        cases vc with
        | none => exact absurd rfl h2
        | some vc =>
          rw [rankCmp_versioned] at h1 h2 ⊢
          exact hvp.le_trans _ _ _ h1 h2

instance : IsTrans WindowsPython rankRel :=
  ⟨fun a b c => lawful_rankCmp.le_trans a b c⟩

instance : IsTotal WindowsPython rankRel := by
  refine ⟨fun a b => ?_⟩
  rcases hab : rankCmp a b with _ | _ | _
  · exact Or.inl (by rw [rankRel, hab]; decide)
  · exact Or.inl (by rw [rankRel, hab]; decide)
  · refine Or.inr ?_
    have hs := lawful_rankCmp.swap_eq a b
    rw [hab] at hs
    rw [rankRel, ← hs]
    decide

instance : IsAntisymm WindowsPython rankRel := by
  refine ⟨fun a b h1 h2 => ?_⟩
  rcases hab : rankCmp a b with _ | _ | _
  · exfalso
    have hs := lawful_rankCmp.gt_of_lt hab
    exact h2 hs
  · exact (lawful_rankCmp.eq_iff a b).mp hab
  · exact absurd hab h1

/-! ## Scan success lemmas -/

theorem scanTags_ok (reg : Registry) (root : Root) (company : String)
    (hopen : ∀ p, reg.openKey root p = Except.ok ()) :
    ∀ tags, ∃ l, scanTags reg root company tags = Except.ok l := by
  intro tags
  induction tags with
  | nil => exact ⟨[], rfl⟩
  | cons tag rest ih =>
    obtain ⟨l, hl⟩ := ih
    cases hre : (readRegistryEntry reg root company tag).fst with
    | some p =>
      refine ⟨p :: l, ?_⟩
      simp only [scanTags, hopen, hl, hre]
    | none =>
      refine ⟨l, ?_⟩
      simp only [scanTags, hopen, hl, hre]

theorem scanCompanies_ok (reg : Registry) (root : Root)
    (hopen : ∀ p, reg.openKey root p = Except.ok ())
    (hsub : ∀ p, ∃ ts, reg.subkeys root p = Except.ok ts) :
    ∀ companies, ∃ l, scanCompanies reg root companies = Except.ok l := by
  intro companies
  induction companies with
  | nil => exact ⟨[], rfl⟩
  | cons company rest ih =>
    obtain ⟨l2, h2⟩ := ih
    by_cases hc : company = "PyLauncher"
    · exact ⟨l2, by simp only [scanCompanies, if_pos hc, h2]⟩
    · obtain ⟨ts, hts⟩ := hsub ["Software\\Python", company]
      obtain ⟨l1, h1⟩ := scanTags_ok reg root company hopen ts
      refine ⟨l1 ++ l2, ?_⟩
      simp only [scanCompanies, if_neg hc, hopen, hts, h1, h2]

theorem registryPythons_ok (reg : Registry)
    (hopen : ∀ root p, reg.openKey root p = Except.ok ())
    (hsub : ∀ root p, ∃ ts, reg.subkeys root p = Except.ok ts) :
    ∃ l, registryPythons reg = Except.ok l := by
  obtain ⟨cs1, hcs1⟩ := hsub Root.currentUser ["Software\\Python"]
  obtain ⟨cs2, hcs2⟩ := hsub Root.localMachine ["Software\\Python"]
  obtain ⟨l1, h1⟩ := scanCompanies_ok reg Root.currentUser
    (hopen Root.currentUser) (hsub Root.currentUser) cs1
  obtain ⟨l2, h2⟩ := scanCompanies_ok reg Root.localMachine
    (hopen Root.localMachine) (hsub Root.localMachine) cs2
  refine ⟨rankSort (l1 ++ l2), ?_⟩
  simp only [registryPythons, scanRoot, hopen, hcs1, hcs2, h1, h2]

/-- C3: soft-skip at scope and vendor opens, hard abort on enumeration and
on opening an enumerated tag, with the hard error propagated. -/
theorem uv_c3_scan_error_policy :
    (∀ (reg : Registry) (root : Root) (e : RegError),
      reg.openKey root ["Software\\Python"] = Except.error e →
      scanRoot reg root = Except.ok [])
  ∧ (∀ (reg : Registry) (root : Root) (company : String) (rest : List String)
      (e : RegError), company ≠ "PyLauncher" →
      reg.openKey root ["Software\\Python", company] = Except.error e →
      scanCompanies reg root (company :: rest) = scanCompanies reg root rest)
  ∧ (∀ (reg : Registry) (root : Root) (e : RegError),
      reg.openKey root ["Software\\Python"] = Except.ok () →
      reg.subkeys root ["Software\\Python"] = Except.error e →
      scanRoot reg root = Except.error e)
  ∧ (∀ (reg : Registry) (root : Root) (company : String) (rest : List String)
      (e : RegError), company ≠ "PyLauncher" →
      reg.openKey root ["Software\\Python", company] = Except.ok () →
      reg.subkeys root ["Software\\Python", company] = Except.error e →
      scanCompanies reg root (company :: rest) = Except.error e)
  ∧ (∀ (reg : Registry) (root : Root) (company tag : String)
      (rest : List String) (e : RegError),
      reg.openKey root (tagPath company tag) = Except.error e →
      scanTags reg root company (tag :: rest) = Except.error e)
  ∧ (∀ (reg : Registry) (e : RegError),
      scanRoot reg Root.currentUser = Except.error e →
      registryPythons reg = Except.error e) := by
  refine ⟨?_, ?_, ?_, ?_, ?_, ?_⟩
  · intro reg root e h
    simp only [scanRoot, h]
  · intro reg root company rest e hc h
    simp only [scanCompanies, if_neg hc, h]
  · intro reg root e ho h
    simp only [scanRoot, ho, h]
  · intro reg root company rest e hc ho h
    simp only [scanCompanies, if_neg hc, ho, h]
  · intro reg root company tag rest e h
    simp only [scanTags, h]
  · intro reg e h
    simp only [registryPythons, h]

theorem uv_c3_scan_error_policy_witness :
    scanRoot regOpenFail Root.currentUser = Except.ok []
  ∧ scanCompanies regOpenFail Root.currentUser ["PyCorp"] =
      scanCompanies regOpenFail Root.currentUser []
  ∧ scanRoot regRootEnumFail Root.currentUser = Except.error 7
  ∧ scanCompanies regCompanyEnumFail Root.currentUser ["PyCorp"] = Except.error 9
  ∧ scanTags regTagOpenFail Root.currentUser "PyCorp" ["3.12"] = Except.error 11
  ∧ registryPythons regRootEnumFail = Except.error 7 :=
  ⟨uv_c3_scan_error_policy.1 regOpenFail Root.currentUser 2 rfl,
   uv_c3_scan_error_policy.2.1 regOpenFail Root.currentUser "PyCorp" [] 2
     (by decide) rfl,
   uv_c3_scan_error_policy.2.2.1 regRootEnumFail Root.currentUser 7 rfl rfl,
   uv_c3_scan_error_policy.2.2.2.1 regCompanyEnumFail Root.currentUser "PyCorp" [] 9
     (by decide) rfl (by decide),
   uv_c3_scan_error_policy.2.2.2.2.1 regTagOpenFail Root.currentUser "PyCorp" "3.12"
     [] 11 (by decide),
   uv_c3_scan_error_policy.2.2.2.2.2 regRootEnumFail 7 (by decide)⟩

/-- C4: the entry parser is total — a failed mandatory-field chain yields
`none` (entry omitted) and can never abort the scan; with working store
enumeration the scan succeeds, and a concrete entry missing `ExecutablePath`
is simply absent from the successful result. -/
theorem uv_c4_parser_never_hard_error :
    (∀ (reg : Registry) (root : Root) (company tag : String) (e : RegError),
      exeResult reg root company tag = Except.error e →
      readRegistryEntry reg root company tag =
        (none, [LogMsg.notExecutable company tag]))
  ∧ (∀ reg : Registry,
      (∀ root p, reg.openKey root p = Except.ok ()) →
      (∀ root p, ∃ ts, reg.subkeys root p = Except.ok ts) →
      ∃ l, registryPythons reg = Except.ok l)
  ∧ registryPythons regMissingExe = Except.ok [⟨"C:\\py2\\python.exe", none⟩] := by
  refine ⟨?_, ?_, ?_⟩
  · intro reg root company tag e h
    simp only [readRegistryEntry, h]
  · intro reg hopen hsub
    exact registryPythons_ok reg hopen hsub
  · decide

theorem uv_c4_parser_never_hard_error_witness :
    readRegistryEntry regMissingExe Root.currentUser "PyCorp" "T1" =
      (none, [LogMsg.notExecutable "PyCorp" "T1"]) :=
  uv_c4_parser_never_hard_error.1 regMissingExe Root.currentUser "PyCorp" "T1"
    2 (by decide)

/-- C5: a readable `SysVersion` text that fails to parse degrades the entry to
versionless (kept, not omitted), with a diagnostic naming the text and the
executable path. -/
theorem uv_c5_version_parse_degrade (reg : Registry) (root : Root)
    (company tag exe s err : String)
    (hexe : exeResult reg root company tag = Except.ok exe)
    (hs : sysVersionText reg root company tag = Except.ok s)
    (hparse : pythonVersionFromStr s = Except.error err) :
    readRegistryEntry reg root company tag =
      (some ⟨exe, none⟩, [LogMsg.invalidVersion exe s err]) := by
  simp only [readRegistryEntry, hexe, hs, hparse]

theorem uv_c5_version_parse_degrade_witness :
    readRegistryEntry regBadVer Root.currentUser "PyCorp" "3.12" =
      (some ⟨"C:\\py\\python.exe", none⟩,
        [LogMsg.invalidVersion "C:\\py\\python.exe" "not-a-version"
          "invalid version component: not-a-version"]) :=
  uv_c5_version_parse_degrade regBadVer Root.currentUser "PyCorp" "3.12"
    "C:\\py\\python.exe" "not-a-version" "invalid version component: not-a-version"
    (by decide) (by decide) (by decide)

/-- C10: if the `SysVersion` value exists but is not readable as text, the
entry is kept with `version = none` and no diagnostic is emitted. -/
theorem uv_c10_wrong_type_version_silent (reg : Registry) (root : Root)
    (company tag exe : String)
    (hexe : exeResult reg root company tag = Except.ok exe)
    (hval : reg.getValue root (tagPath company tag) "SysVersion" =
      Except.ok RegValue.other) :
    readRegistryEntry reg root company tag = (some ⟨exe, none⟩, []) := by
  have hs : sysVersionText reg root company tag = Except.error 13 := by
    simp only [sysVersionText, hval, regValueAsString]
  simp only [readRegistryEntry, hexe, hs]

theorem uv_c10_wrong_type_version_silent_witness :
    readRegistryEntry regOtherVer Root.currentUser "PyCorp" "3.12" =
      (some ⟨"C:\\py\\python.exe", none⟩, []) :=
  uv_c10_wrong_type_version_silent regOtherVer Root.currentUser "PyCorp" "3.12"
    "C:\\py\\python.exe" (by decide) (by decide)

/-- C2 (counterexample): the entry parser can construct a `WindowsPython`
whose path is the empty string — the registry stores an empty
`ExecutablePath` text and the parser accepts it verbatim. -/
theorem uv_c2_counterexample_empty_path :
    (readRegistryEntry regEmptyPath Root.currentUser "PyCorp" "3.12").fst =
      some ⟨"", none⟩ := by
  decide

/-- C2 (amended): every `WindowsPython` the entry parser produces takes its
path verbatim from a successfully read `ExecutablePath` text (which may be
empty), and its version, when present, was parsed successfully from the
`SysVersion` text by the version parser. -/
theorem uv_c2_entry_invariant_amended (reg : Registry) (root : Root)
    (company tag : String) (p : WindowsPython)
    (h : (readRegistryEntry reg root company tag).fst = some p) :
    exeResult reg root company tag = Except.ok p.path ∧
    (∀ v, p.version = some v →
      ∃ s, sysVersionText reg root company tag = Except.ok s ∧
        pythonVersionFromStr s = Except.ok v) := by
  rcases he : exeResult reg root company tag with e | exe
  · simp only [readRegistryEntry, he] at h
    exact Option.noConfusion h
  · rcases hs : sysVersionText reg root company tag with e' | s
    · simp only [readRegistryEntry, he, hs, Option.some.injEq] at h
      subst h
      exact ⟨rfl, fun v hv => Option.noConfusion hv⟩
    · rcases hp : pythonVersionFromStr s with err | v
      · simp only [readRegistryEntry, he, hs, hp, Option.some.injEq] at h
        subst h
        exact ⟨rfl, fun v hv => Option.noConfusion hv⟩
      · simp only [readRegistryEntry, he, hs, hp, Option.some.injEq] at h
        subst h
        refine ⟨rfl, fun v' hv => ?_⟩
        rw [Option.some.injEq] at hv
        exact ⟨s, rfl, hv ▸ hp⟩

theorem uv_c2_entry_invariant_amended_witness :
    exeResult regGood Root.currentUser "PyCorp" "3.12" =
      Except.ok "C:\\py\\python.exe"
  ∧ sysVersionText regGood Root.currentUser "PyCorp" "3.12" = Except.ok "3.12.0"
  ∧ pythonVersionFromStr "3.12.0" = Except.ok ⟨[3, 12, 0]⟩ :=
  ⟨(uv_c2_entry_invariant_amended regGood Root.currentUser "PyCorp" "3.12"
      ⟨"C:\\py\\python.exe", some ⟨[3, 12, 0]⟩⟩ (by decide)).1,
   by decide, by decide⟩

/-- C6: pointer-width derivation — 32-bit family maps to label 32, 64-bit to
64; an unrecognized pointer width makes `create_registry_entry` return the
typed `InvalidPointerSize` error with the error list untouched and no store
mutation applied. -/
theorem uv_c6_pointer_width_policy :
    (∀ a : Arch, a.pointerWidthFamily = some PointerWidth.u32 →
      pointerWidthLabel a = Except.ok 32)
  ∧ (∀ a : Arch, a.pointerWidthFamily = some PointerWidth.u64 →
      pointerWidthLabel a = Except.ok 64)
  ∧ (∀ (oracle : WriteOp → Except RegError Unit)
      (i : ManagedPythonInstallation)
      (errors : List (PythonInstallationKey × RegError))
      (err : ManagedPep514Error),
      pointerWidthLabel i.key.arch = Except.error err →
      createRegistryEntry oracle i errors = (Except.error err, errors, [])) := by
  refine ⟨?_, ?_, ?_⟩
  · intro a h
    simp only [pointerWidthLabel, h]
  · intro a h
    simp only [pointerWidthLabel, h]
  · intro oracle i errors err h
    simp only [createRegistryEntry, h]

theorem uv_c6_pointer_width_policy_witness :
    pointerWidthLabel ⟨"x86", some PointerWidth.u32⟩ = Except.ok 32
  ∧ pointerWidthLabel ⟨"x86_64", some PointerWidth.u64⟩ = Except.ok 64
  ∧ createRegistryEntry oracleOk instBadArch [] =
      (Except.error (ManagedPep514Error.invalidPointerSize ⟨"avr", none⟩), [], []) :=
  ⟨uv_c6_pointer_width_policy.1 ⟨"x86", some PointerWidth.u32⟩ rfl,
   uv_c6_pointer_width_policy.2.1 ⟨"x86_64", some PointerWidth.u64⟩ rfl,
   uv_c6_pointer_width_policy.2.2 oracleOk instBadArch [] 
     (ManagedPep514Error.invalidPointerSize ⟨"avr", none⟩) (by decide)⟩

/-- C7: for a recognized pointer width, a write failure is appended to the
caller-owned error list keyed by the installation's identity and
`create_registry_entry` still returns success; hence in a sequential batch the
sibling installation is still attempted and succeeds. -/
theorem uv_c7_write_failure_isolation :
    (∀ (oracle : WriteOp → Except RegError Unit)
      (i : ManagedPythonInstallation)
      (errors : List (PythonInstallationKey × RegError))
      (pw : Nat) (e : RegError) (t : List WriteOp),
      pointerWidthLabel i.key.arch = Except.ok pw →
      writeRegistryEntry oracle i pw = (Except.error e, t) →
      createRegistryEntry oracle i errors =
        (Except.ok (), errors ++ [(i.key, e)], t))
  ∧ (∀ (oracle : WriteOp → Except RegError Unit)
      (i1 i2 : ManagedPythonInstallation)
      (errors : List (PythonInstallationKey × RegError))
      (pw1 pw2 : Nat) (e : RegError) (t1 t2 : List WriteOp),
      pointerWidthLabel i1.key.arch = Except.ok pw1 →
      pointerWidthLabel i2.key.arch = Except.ok pw2 →
      writeRegistryEntry oracle i1 pw1 = (Except.error e, t1) →
      writeRegistryEntry oracle i2 pw2 = (Except.ok (), t2) →
      createRegistryEntries oracle [i1, i2] errors =
        Except.ok (errors ++ [(i1.key, e)], t1 ++ t2)) := by
  have hbase : ∀ (oracle : WriteOp → Except RegError Unit)
      (i : ManagedPythonInstallation)
      (errors : List (PythonInstallationKey × RegError))
      (pw : Nat) (e : RegError) (t : List WriteOp),
      pointerWidthLabel i.key.arch = Except.ok pw →
      writeRegistryEntry oracle i pw = (Except.error e, t) →
      createRegistryEntry oracle i errors =
        (Except.ok (), errors ++ [(i.key, e)], t) := by
    intro oracle i errors pw e t hpw hw
    simp only [createRegistryEntry, hpw, hw]
  have hok : ∀ (oracle : WriteOp → Except RegError Unit)
      (i : ManagedPythonInstallation)
      (errors : List (PythonInstallationKey × RegError))
      (pw : Nat) (t : List WriteOp),
      pointerWidthLabel i.key.arch = Except.ok pw →
      writeRegistryEntry oracle i pw = (Except.ok (), t) →
      createRegistryEntry oracle i errors = (Except.ok (), errors, t) := by
    intro oracle i errors pw t hpw hw
    simp only [createRegistryEntry, hpw, hw]
  refine ⟨hbase, ?_⟩
  intro oracle i1 i2 errors pw1 pw2 e t1 t2 hpw1 hpw2 hw1 hw2
  simp only [createRegistryEntries,
    hbase oracle i1 errors pw1 e t1 hpw1 hw1,
    hok oracle i2 (errors ++ [(i1.key, e)]) pw2 t2 hpw2 hw2,
    List.append_nil]

theorem uv_c7_write_failure_isolation_witness :
    writeRegistryEntry oracleFailV312 instB 64 = (Except.ok (), writeOps instB 64)
  ∧ createRegistryEntries oracleFailV312 [instA, instB] [] =
      Except.ok ([(instA.key, 5)], traceA ++ writeOps instB 64) :=
  ⟨by decide,
   uv_c7_write_failure_isolation.2 oracleFailV312 instA instB [] 64 64 5 traceA
     (writeOps instB 64) (by decide) (by decide) (by decide) (by decide)⟩

/-- C1 (code evaluation at the failing input): with A = `/a` version 3.12.0,
B = `/b` version 3.11.5, C = `/c` versionless, the ranking comparator places
the versionless entry FIRST: the ranked output is [C, A, B], not [A, B, C] —
the `(Some, None) => Greater` branch sorts versioned entries after versionless
ones, contradicting the comment above it. -/
theorem uv_c1_version_precedence_code_eval :
    pythonVersionFromStr "3.12.0" = Except.ok ⟨[3, 12, 0]⟩
  ∧ pythonVersionFromStr "3.11.5" = Except.ok ⟨[3, 11, 5]⟩
  ∧ rankSort [entryA, entryB, entryC] = [entryC, entryA, entryB]
  ∧ rankSort [entryA, entryB, entryC] ≠ [entryA, entryB, entryC] := by
  refine ⟨by decide, by decide, by decide, by decide⟩

/-- C9: the ranking is order-independent (any permutation of the input sorts
to the identical list) and idempotent. -/
theorem uv_c9_rank_order_independent (l1 l2 : List WindowsPython)
    (hperm : l1.Perm l2) :
    rankSort l1 = rankSort l2 ∧ rankSort (rankSort l1) = rankSort l1 := by
  constructor
  · exact List.eq_of_perm_of_sorted
      ((List.perm_insertionSort rankRel l1).trans
        (hperm.trans (List.perm_insertionSort rankRel l2).symm))
      (List.sorted_insertionSort rankRel l1)
      (List.sorted_insertionSort rankRel l2)
  · exact List.Sorted.insertionSort_eq (List.sorted_insertionSort rankRel l1)

theorem uv_c9_rank_order_independent_witness :
    rankSort [entryA, entryC] = rankSort [entryC, entryA]
  ∧ rankSort (rankSort [entryA, entryC]) = rankSort [entryA, entryC] :=
  uv_c9_rank_order_independent [entryA, entryC] [entryC, entryA]
    (List.Perm.swap entryC entryA [])

/-- C8: within the ranked output, any versioned entry precedes another
versioned entry only with descending version (ties broken by ascending path),
and any versionless entry precedes another versionless entry only with
ascending path; concretely, two entries with equal version and paths `/a`,
`/b` come out in that order. -/
theorem uv_c8_within_group_order :
    (∀ l : List WindowsPython, (rankSort l).Pairwise (fun a b =>
      (∀ va vb, a.version = some va → b.version = some vb →
        versionCmp vb va ≠ Ordering.gt ∧
          (va = vb → pathCmp a.path b.path ≠ Ordering.gt)) ∧
      (a.version = none → b.version = none →
        pathCmp a.path b.path ≠ Ordering.gt)))
  ∧ rankSort [entryTieB, entryTieA] = [entryTieA, entryTieB] := by
  constructor
  · intro l
    refine (List.sorted_insertionSort rankRel l).imp ?_
    intro a b hab
    obtain ⟨pa, va⟩ := a
    obtain ⟨pb, vb⟩ := b
    constructor
    · intro va' vb' hva hvb
      simp only at hva hvb
      subst hva
      subst hvb
      rw [rankRel] at hab
      rw [show rankCmp ⟨pa, some va'⟩ ⟨pb, some vb'⟩ =
        ((versionCmp va' vb').swap).then (pathCmp pa pb) from rfl,
        then_ne_gt] at hab
      obtain ⟨h1, h2⟩ := hab
      refine ⟨by rw [← lawful_versionCmp.swap_eq]; exact h1, fun hvv => ?_⟩
      subst hvv
      refine h2 ?_
      rw [lawful_versionCmp.refl_eq]
      rfl
    · intro hva hvb
      simp only at hva hvb
      subst hva
      subst hvb
      exact hab
  · decide
